import Mathlib

/-!
# Verification of the Image Compressor session logic

Shallow embedding of the core logic of `src/index.tsx`: the parameter
mapper `getCompressionOptions`, the byte-size formatter `formatBytes`,
and the workflow controller (the `App` component's state and its event
handlers `handleFileChange`, `handleCompress`, `handleReset`,
`handleDownload`, plus the preset/quality setters wired to the UI).

Modelling choices, lined up with the source:
* A browser `File` is its observable attributes: `name`, `size`, `type`
  (the declared MIME type).
* `URL.createObjectURL` / `URL.revokeObjectURL` are modelled by a fresh
  natural-number handle counter: creating a handle returns the current
  `nextHandle` and appends it to the `created` ledger; revoking appends
  the handle to the `revoked` ledger.  The empty-string URL of the
  initial state is `none`; revoking a non-handle (`none`) is a no-op,
  exactly as `URL.revokeObjectURL('')` is.
* The asynchronous `imageCompression` call is split into two events:
  `handleCompress` (the click on the compress button, which starts the
  call, records it in the `calls` ledger and sets `isCompressing`) and
  `compressionResult` (the promise settling: `some f` for success,
  `none` for a raised error, which runs the `try`/`catch`/`finally`
  continuation).
* An event is a no-op when the UI element that fires it is not rendered
  in the current `appState` (each render function is keyed on
  `appState`), or when the element is disabled (the compress button has
  `disabled = isCompressing`).
* JavaScript numbers appearing in the compression options are embedded
  as exact rationals; `Math.floor (Math.log bytes / Math.log 1024)` is
  the floor logarithm `Nat.log 1024 bytes`.
-/

/-- A selected file: the attributes of a browser `File` the program reads. -/
structure File where
  name : String
  size : Nat
  type : String
deriving DecidableEq

/-- The object literal returned by `getCompressionOptions` in the source
(`useWebWorker` and `onProgress` are added unconditionally at the call
site and carry no data, so they are not modelled). -/
structure CompressionOptions where
  maxSizeMB : ℚ
  initialQuality : ℚ
deriving DecidableEq

/-- `getCompressionOptions` from `src/index.tsx` lines 58-70: the switch on
`compressionLevel`, with `Medium` sharing the `default` branch. -/
def getCompressionOptions (compressionLevel : String) (customQuality : Nat) :
    CompressionOptions :=
  if compressionLevel = "Low" then
    { maxSizeMB := 1, initialQuality := 0.8 }
  else if compressionLevel = "High" then
    { maxSizeMB := 0.1, initialQuality := 0.4 }
  else if compressionLevel = "Custom" then
    { maxSizeMB := 2, initialQuality := (customQuality : ℚ) / 100 }
  else
    { maxSizeMB := 0.5, initialQuality := 0.6 }

/-- Rendering of `parseFloat ((bytes / k ^ i).toFixed dm) + ' '` in
`formatBytes`: `n` is the value scaled by `10 ^ dm` and already rounded
(ECMA `toFixed` rounds half away from zero, i.e. half up for the
non-negative values occurring here); `parseFloat` followed by number
to string conversion prints the decimal with trailing zeros stripped
and no trailing dot. -/
def renderParsedFixed (n dm : Nat) : String :=
  let ip := n / 10 ^ dm
  let fp := n % 10 ^ dm
  let fs := toString fp
  let padded := List.replicate (dm - fs.length) '0' ++ fs.toList
  let stripped := (padded.reverse.dropWhile (fun c => c = '0')).reverse
  if stripped.isEmpty then toString ip
  else toString ip ++ "." ++ String.mk stripped

/-- `formatBytes` from `src/index.tsx` lines 18-25.  `decimals` defaults to 2
at the source call sites modelled here.  `Math.floor (Math.log bytes /
Math.log k)` is the floor logarithm `Nat.log 1024 bytes`; `sizes[i]` out of
range (JavaScript `undefined`) is modelled by `List.getD _ _ ""`. -/
def formatBytes (bytes : Nat) (decimals : Int) : String :=
  if bytes = 0 then "0 Bytes"
  else
    let dm : Nat := (if decimals < 0 then 0 else decimals).toNat
    let sizes := ["Bytes", "KB", "MB", "GB"]
    let i := Nat.log 1024 bytes
    let p := 1024 ^ i
    let n := (bytes * 10 ^ dm * 2 + p) / (2 * p)
    renderParsedFixed n dm ++ " " ++ sizes.getD i ""

/-- The fixed validation message of `handleFileChange`. -/
def validationMsg : String := "Please upload a valid JPG, PNG, or WebP image."

/-- The fixed failure message of the `catch` branch of `handleCompress`. -/
def compressionFailMsg : String :=
  "Failed to compress image. It might be too small or in an unsupported format."

/-- The accepted MIME types checked by `handleFileChange`. -/
def acceptedTypes : List String := ["image/jpeg", "image/png", "image/webp"]

/-- The `App` component's state (`useState` hooks), plus three ledgers that
record the observable interactions: `created`/`revoked` log every
`URL.createObjectURL` / `URL.revokeObjectURL` call (`nextHandle` is the
fresh-handle counter), and `calls` logs every invocation of the external
`imageCompression` collaborator with its argument. -/
structure SessionState where
  originalFile : Option File
  compressedFile : Option File
  originalImageUrl : Option Nat
  compressedImageUrl : Option Nat
  compressionLevel : String
  customQuality : Nat
  isCompressing : Bool
  error : String
  appState : String
  nextHandle : Nat
  created : List Nat
  revoked : List Nat
  calls : List (File × CompressionOptions)

/-- `URL.revokeObjectURL` on a stored URL: a no-op on the empty string,
otherwise the handle is appended to the `revoked` ledger. -/
def revokeObjectURL (s : SessionState) (u : Option Nat) : SessionState :=
  match u with
  | some h => { s with revoked := s.revoked ++ [h] }
  | none => s

/-- The UI events that reach the controller.  `compressionResult` is the
settling of the `imageCompression` promise awaited inside
`handleCompress` (`some` = resolved, `none` = rejected). -/
inductive Ev where
  | handleFileChange (f : Option File)
  | setCompressionLevel (l : String)
  | setCustomQuality (q : Nat)
  | handleCompress
  | compressionResult (r : Option File)
  | handleReset
  | handleDownload

/-- One controller step.  Guards mirror which render function hosts the
event's UI element (`handleFileChange` only in the upload view, the
settings and compress button only in the compressing view with the
compress button disabled while `isCompressing`, reset and download only
in the done view) and the in-code guards (`if (!originalFile) return`,
the `isCompressing` check is the `disabled` attribute on the button). -/
def step (s : SessionState) (e : Ev) : SessionState :=
  match e with
  | Ev.handleFileChange f =>
    if s.appState = "upload" then
      match f with
      | some file =>
        if file.type ∈ acceptedTypes then
          { s with originalFile := some file,
                   originalImageUrl := some s.nextHandle,
                   nextHandle := s.nextHandle + 1,
                   created := s.created ++ [s.nextHandle],
                   error := "",
                   appState := "compressing" }
        else { s with error := validationMsg }
      | none => { s with error := validationMsg }
    else s
  | Ev.setCompressionLevel l =>
    if s.appState = "compressing" ∧ l ∈ ["Low", "Medium", "High", "Custom"] then
      { s with compressionLevel := l }
    else s
  | Ev.setCustomQuality q =>
    if s.appState = "compressing" ∧ s.compressionLevel = "Custom" ∧ 1 ≤ q ∧ q ≤ 100 then
      { s with customQuality := q }
    else s
  | Ev.handleCompress =>
    if s.appState = "compressing" ∧ s.isCompressing = false then
      match s.originalFile with
      | none => s
      | some f =>
        { s with isCompressing := true,
                 error := "",
                 calls := s.calls ++
                   [(f, getCompressionOptions s.compressionLevel s.customQuality)] }
    else s
  | Ev.compressionResult r =>
    if s.isCompressing = true then
      match r with
      | some compressed =>
        { s with compressedFile := some compressed,
                 compressedImageUrl := some s.nextHandle,
                 nextHandle := s.nextHandle + 1,
                 created := s.created ++ [s.nextHandle],
                 appState := "done",
                 isCompressing := false }
      | none =>
        { s with error := compressionFailMsg,
                 appState := "upload",
                 isCompressing := false }
    else s
  | Ev.handleReset =>
    if s.appState = "done" then
      let s1 := revokeObjectURL s s.originalImageUrl
      let s2 := revokeObjectURL s1 s.compressedImageUrl
      { s2 with originalFile := none, compressedFile := none,
                originalImageUrl := none, compressedImageUrl := none,
                compressionLevel := "Medium", customQuality := 70,
                error := "", appState := "upload" }
    else s
  | Ev.handleDownload => s

/-- The initial `useState` values of the `App` component. -/
def initialState : SessionState where
  originalFile := none
  compressedFile := none
  originalImageUrl := none
  compressedImageUrl := none
  compressionLevel := "Medium"
  customQuality := 70
  isCompressing := false
  error := ""
  appState := "upload"
  nextHandle := 0
  created := []
  revoked := []
  calls := []

/-- Run a sequence of events from the initial state. -/
def run (es : List Ev) : SessionState :=
  es.foldl step initialState

/-- A state the controller can actually be in. -/
def Reachable (s : SessionState) : Prop :=
  ∃ es, run es = s

/-- The inductive invariant of the controller: the phase determines which
files and preview handles are present, `isCompressing` only holds in the
compressing view, and the handle ledgers are consistent (no handle revoked
twice, only created handles revoked, live handles created, unrevoked and
distinct). -/
def SessionInv (s : SessionState) : Prop :=
  (s.isCompressing = true → s.appState = "compressing") ∧
  (s.compressedFile.isSome = true ↔ s.appState = "done") ∧
  (s.compressedImageUrl.isSome = true ↔ s.appState = "done") ∧
  (s.appState ≠ "upload" → s.originalFile.isSome = true) ∧
  (s.appState ≠ "upload" → s.originalImageUrl.isSome = true) ∧
  s.revoked.Nodup ∧
  (∀ h ∈ s.revoked, h ∈ s.created) ∧
  (∀ h ∈ s.created, h < s.nextHandle) ∧
  (∀ h, s.originalImageUrl = some h → h ∈ s.created ∧ h ∉ s.revoked) ∧
  (∀ h, s.compressedImageUrl = some h → h ∈ s.created ∧ h ∉ s.revoked) ∧
  (∀ h, s.originalImageUrl = some h → s.compressedImageUrl ≠ some h)

theorem SessionInv_initialState : SessionInv initialState := by
  refine ⟨?_, ?_, ?_, ?_, ?_, ?_, ?_, ?_, ?_, ?_, ?_⟩ <;>
    simp [initialState]

theorem SessionInv_step (s : SessionState) (e : Ev) (hs : SessionInv s) : SessionInv (step s e) := by
  obtain ⟨h1, h2, h3, h4, h5, h6, h7, h8, h9, h10, h11⟩ := hs
  cases e with
  | handleFileChange f =>
    by_cases hu : s.appState = "upload"
    · cases f with
      | some file =>
        by_cases ht : file.type ∈ acceptedTypes
        · have hfresh : s.nextHandle ∉ s.revoked := fun hm =>
            Nat.lt_irrefl _ (h8 _ (h7 _ hm))
          have hcfnone : s.compressedFile = none := by
            cases hcf : s.compressedFile with
            | none => rfl
            | some g =>
              have := h2.mp (by simp [hcf])
              rw [hu] at this
              exact absurd this (by decide)
          have hcnone : s.compressedImageUrl = none := by
            cases hcu : s.compressedImageUrl with
            | none => rfl
            | some h =>
              have := h3.mp (by simp [hcu])
              rw [hu] at this
              exact absurd this (by decide)
          have hstep : step s (Ev.handleFileChange (some file)) =
              { s with originalFile := some file,
                       originalImageUrl := some s.nextHandle,
                       nextHandle := s.nextHandle + 1,
                       created := s.created ++ [s.nextHandle],
                       error := "",
                       appState := "compressing" } := by
            simp only [step, if_pos hu, if_pos ht]
          rw [hstep]
          refine ⟨?_, ?_, ?_, ?_, ?_, ?_, ?_, ?_, ?_, ?_, ?_⟩
          · intro _
            rfl
          · simp only [hcfnone, Option.isSome_none]
            constructor
            · intro hx
              exact absurd hx (by decide)
            · intro hx
              exact absurd hx (by decide)
          · simp only [hcnone, Option.isSome_none]
            constructor
            · intro hx
              exact absurd hx (by decide)
            · intro hx
              exact absurd hx (by decide)
          · intro _
            rfl
          · intro _
            rfl
          · exact h6
          · intro h hm
            exact List.mem_append.mpr (Or.inl (h7 h hm))
          · intro h hm
            rcases List.mem_append.mp hm with hm | hm
            · exact Nat.lt_succ_of_lt (h8 h hm)
            · simp at hm
              subst hm
              exact Nat.lt_succ_self _
          · intro h hh
            simp only [Option.some.injEq] at hh
            subst hh
            exact ⟨List.mem_append.mpr (Or.inr (by simp)), hfresh⟩
          · intro h hh
            simp only [hcnone] at hh
            cases hh
          · intro h hh
            simp only [hcnone]
            simp
        · refine ⟨?_, ?_, ?_, ?_, ?_, ?_, ?_, ?_, ?_, ?_, ?_⟩ <;>
            simp only [step, hu, ht, if_true, if_false, if_neg, ite_false] <;>
            simp_all
      | none =>
        refine ⟨?_, ?_, ?_, ?_, ?_, ?_, ?_, ?_, ?_, ?_, ?_⟩ <;>
          simp only [step, hu, if_true] <;> simp_all
    · have : step s (Ev.handleFileChange f) = s := by
        simp [step, hu]
      rw [this]
      exact ⟨h1, h2, h3, h4, h5, h6, h7, h8, h9, h10, h11⟩
  | setCompressionLevel l =>
    by_cases hc : s.appState = "compressing" ∧ l ∈ ["Low", "Medium", "High", "Custom"]
    · refine ⟨?_, ?_, ?_, ?_, ?_, ?_, ?_, ?_, ?_, ?_, ?_⟩ <;>
        simp only [step, hc, if_true, if_pos] <;> simp_all
    · have : step s (Ev.setCompressionLevel l) = s := by
        simp only [step, if_neg hc]
      rw [this]
      exact ⟨h1, h2, h3, h4, h5, h6, h7, h8, h9, h10, h11⟩
  | setCustomQuality q =>
    by_cases hc : s.appState = "compressing" ∧ s.compressionLevel = "Custom" ∧ 1 ≤ q ∧ q ≤ 100
    · refine ⟨?_, ?_, ?_, ?_, ?_, ?_, ?_, ?_, ?_, ?_, ?_⟩ <;>
        simp only [step, hc, if_true, if_pos] <;> simp_all
    · have : step s (Ev.setCustomQuality q) = s := by
        simp only [step, if_neg hc]
      rw [this]
      exact ⟨h1, h2, h3, h4, h5, h6, h7, h8, h9, h10, h11⟩
  | handleCompress =>
    by_cases hc : s.appState = "compressing" ∧ s.isCompressing = false
    · cases ho : s.originalFile with
      | none =>
        have : step s Ev.handleCompress = s := by
          simp only [step, if_pos hc, ho]
        rw [this]
        exact ⟨h1, h2, h3, h4, h5, h6, h7, h8, h9, h10, h11⟩
      | some f =>
        refine ⟨?_, ?_, ?_, ?_, ?_, ?_, ?_, ?_, ?_, ?_, ?_⟩ <;>
          simp only [step, if_pos hc, ho] <;> simp_all
    · have : step s Ev.handleCompress = s := by
        simp only [step, if_neg hc]
      rw [this]
      exact ⟨h1, h2, h3, h4, h5, h6, h7, h8, h9, h10, h11⟩
  | compressionResult r =>
    by_cases hc : s.isCompressing = true
    · have hphase : s.appState = "compressing" := h1 hc
      have hcfnone : s.compressedFile = none := by
        cases hcf : s.compressedFile with
        | none => rfl
        | some g =>
          have := h2.mp (by simp [hcf])
          rw [hphase] at this
          exact absurd this (by decide)
      have hcunone : s.compressedImageUrl = none := by
        cases hcu : s.compressedImageUrl with
        | none => rfl
        | some h =>
          have := h3.mp (by simp [hcu])
          rw [hphase] at this
          exact absurd this (by decide)
      cases r with
      | some compressed =>
        have hfresh : s.nextHandle ∉ s.revoked := fun hm =>
          Nat.lt_irrefl _ (h8 _ (h7 _ hm))
        refine ⟨?_, ?_, ?_, ?_, ?_, ?_, ?_, ?_, ?_, ?_, ?_⟩ <;>
          simp only [step, hc, if_pos, if_true]
        · simp
        · simp
        · simp
        · intro _
          exact h4 (by rw [hphase]; decide)
        · intro _
          exact h5 (by rw [hphase]; decide)
        · exact h6
        · intro h hm
          simp only [List.mem_append]
          exact Or.inl (h7 h hm)
        · intro h hm
          rcases List.mem_append.mp hm with hm | hm
          · exact Nat.lt_succ_of_lt (h8 h hm)
          · simp at hm
            omega
        · intro h hh
          rcases h9 h hh with ⟨hcr, hrv⟩
          exact ⟨List.mem_append.mpr (Or.inl hcr), hrv⟩
        · intro h hh
          simp only [Option.some.injEq] at hh
          subst hh
          exact ⟨by simp, hfresh⟩
        · intro h hh
          simp only [Option.some.injEq, ne_eq]
          intro heq
          rcases h9 h hh with ⟨hcr, _⟩
          have := h8 h hcr
          omega
      | none =>
        have hstep : step s (Ev.compressionResult none) =
            { s with error := compressionFailMsg,
                     appState := "upload",
                     isCompressing := false } := by
          simp only [step, if_pos hc]
        rw [hstep]
        refine ⟨?_, ?_, ?_, ?_, ?_, ?_, ?_, ?_, ?_, ?_, ?_⟩
        · intro hx
          exact Bool.noConfusion hx
        · simp only [hcfnone, Option.isSome_none]
          constructor
          · intro hx
            exact absurd hx (by decide)
          · intro hx
            exact absurd hx (by decide)
        · simp only [hcunone, Option.isSome_none]
          constructor
          · intro hx
            exact absurd hx (by decide)
          · intro hx
            exact absurd hx (by decide)
        · intro hx
          exact absurd rfl hx
        · intro hx
          exact absurd rfl hx
        · exact h6
        · exact h7
        · exact h8
        · exact h9
        · exact h10
        · exact h11
    · have : step s (Ev.compressionResult r) = s := by
        simp only [step, if_neg hc]
      rw [this]
      exact ⟨h1, h2, h3, h4, h5, h6, h7, h8, h9, h10, h11⟩
  | handleReset =>
    by_cases hd : s.appState = "done"
    · have hou : s.originalImageUrl.isSome = true := h5 (by rw [hd]; decide)
      have hcu : s.compressedImageUrl.isSome = true := h3.mpr hd
      obtain ⟨a, ha⟩ := Option.isSome_iff_exists.mp hou
      obtain ⟨b, hb⟩ := Option.isSome_iff_exists.mp hcu
      obtain ⟨hac, har⟩ := h9 a ha
      obtain ⟨hbc, hbr⟩ := h10 b hb
      have hab : a ≠ b := by
        intro heq
        rw [← heq] at hb
        exact h11 a ha hb
      have hstep : step s Ev.handleReset =
          { s with originalFile := none, compressedFile := none,
                   originalImageUrl := none, compressedImageUrl := none,
                   compressionLevel := "Medium", customQuality := 70,
                   error := "", appState := "upload",
                   revoked := s.revoked ++ [a] ++ [b] } := by
        simp only [step, if_pos hd, ha, hb, revokeObjectURL]
      rw [hstep]
      refine ⟨?_, ?_, ?_, ?_, ?_, ?_, ?_, ?_, ?_, ?_, ?_⟩
      · intro hcmp
        have := h1 hcmp
        rw [hd] at this
        exact absurd this (by decide)
      · simp
      · simp
      · simp
      · simp
      · simp only
        rw [List.append_assoc]
        refine List.Nodup.append h6 (by simp [hab]) ?_
        intro x hx hx2
        simp at hx2
        rcases hx2 with rfl | rfl
        · exact har hx
        · exact hbr hx
      · intro h hm
        simp only [List.mem_append] at hm
        rcases hm with (hm | hm) | hm
        · exact h7 h hm
        · simp at hm; subst hm; exact hac
        · simp at hm; subst hm; exact hbc
      · exact h8
      · intro h hh
        simp at hh
      · intro h hh
        simp at hh
      · intro h hh
        simp at hh
    · have : step s Ev.handleReset = s := by
        simp only [step, if_neg hd]
      rw [this]
      exact ⟨h1, h2, h3, h4, h5, h6, h7, h8, h9, h10, h11⟩
  | handleDownload =>
    exact ⟨h1, h2, h3, h4, h5, h6, h7, h8, h9, h10, h11⟩

theorem SessionInv_foldl (es : List Ev) (s : SessionState) (hs : SessionInv s) :
    SessionInv (es.foldl step s) := by
  induction es generalizing s with
  | nil => exact hs
  | cons e es ih => exact ih _ (SessionInv_step s e hs)

theorem SessionInv_reachable (s : SessionState) (h : Reachable s) : SessionInv s := by
  obtain ⟨es, rfl⟩ := h
  exact SessionInv_foldl es initialState SessionInv_initialState

/-- A valid JPEG selection used in concrete scenarios. -/
def demoJpeg : File where
  name := "photo.jpg"
  size := 2097152
  type := "image/jpeg"

/-- A valid PNG selection used in concrete scenarios. -/
def demoPng : File where
  name := "pic.png"
  size := 500000
  type := "image/png"

/-- A non-image selection used in concrete scenarios. -/
def demoText : File where
  name := "notes.txt"
  size := 1000
  type := "text/plain"

/-- A collaborator output payload used in concrete scenarios. -/
def demoOut : File where
  name := "photo.jpg"
  size := 150000
  type := "image/jpeg"

/-- A session with one compression call in flight. -/
def inflightState : SessionState :=
  run [Ev.handleFileChange (some demoJpeg), Ev.handleCompress]

/-- A session that has completed one successful compression. -/
def doneState : SessionState :=
  run [Ev.handleFileChange (some demoJpeg), Ev.handleCompress,
       Ev.compressionResult (some demoOut)]

/-- Claim C1: while `isCompressing = true` the compress button is disabled
(`disabled = isCompressing` in the compressing view), so invoking the
compress action has no observable effect: the state is unchanged, and in
particular the `calls` ledger is unchanged, i.e. the external compression
collaborator is not called a second time. -/
theorem compress_noop_while_inflight (s : SessionState)
    (h : s.isCompressing = true) :
    step s Ev.handleCompress = s ∧ (step s Ev.handleCompress).calls = s.calls := by
  have hstep : step s Ev.handleCompress = s := by
    simp only [step]
    rw [if_neg]
    intro hcon
    rw [h] at hcon
    exact Bool.noConfusion hcon.2
  exact ⟨hstep, by rw [hstep]⟩

/-- Witness for C1: a concrete in-flight session on which the compress
action is a no-op. -/
theorem compress_noop_while_inflight_witness :
    inflightState.isCompressing = true ∧
    step inflightState Ev.handleCompress = inflightState ∧
    (step inflightState Ev.handleCompress).calls = inflightState.calls :=
  ⟨by decide, (compress_noop_while_inflight inflightState (by decide)).1,
    (compress_noop_while_inflight inflightState (by decide)).2⟩

/-- Claim C4: in phase Upload (`appState = "upload"`, the only view that
renders the file input), selecting a payload whose declared MIME type is in
`image/jpeg, image/png, image/webp` stores `originalFile`, creates a fresh
original preview handle, clears the error message and moves to Configure
(`appState = "compressing"`, the view with the settings); any other type
leaves everything unchanged except the error message, which becomes the
fixed validation message. -/
theorem handleFileChange_selection_spec (s : SessionState)
    (h : s.appState = "upload") (f : File) :
    (f.type ∈ ["image/jpeg", "image/png", "image/webp"] →
      step s (Ev.handleFileChange (some f)) =
        { s with originalFile := some f,
                 originalImageUrl := some s.nextHandle,
                 nextHandle := s.nextHandle + 1,
                 created := s.created ++ [s.nextHandle],
                 error := "",
                 appState := "compressing" }) ∧
    (f.type ∉ ["image/jpeg", "image/png", "image/webp"] →
      step s (Ev.handleFileChange (some f)) = { s with error := validationMsg }) := by
  constructor
  · intro ht
    simp only [step, if_pos h, if_pos (show f.type ∈ acceptedTypes from ht)]
  · intro ht
    simp only [step, if_pos h, if_neg (show f.type ∉ acceptedTypes from ht)]

/-- Witness for C4: the initial state accepts a JPEG and rejects a text
file. -/
theorem handleFileChange_selection_spec_witness :
    step initialState (Ev.handleFileChange (some demoJpeg)) =
      { initialState with originalFile := some demoJpeg,
                          originalImageUrl := some initialState.nextHandle,
                          nextHandle := initialState.nextHandle + 1,
                          created := initialState.created ++ [initialState.nextHandle],
                          error := "",
                          appState := "compressing" } ∧
    step initialState (Ev.handleFileChange (some demoText)) =
      { initialState with error := validationMsg } :=
  ⟨(handleFileChange_selection_spec initialState rfl demoJpeg).1 (by decide),
    (handleFileChange_selection_spec initialState rfl demoText).2 (by decide)⟩

/-- Claim C9: a file-selection event that carries no file at all falls into
the same `else` branch as an unsupported MIME type (`if (file && ...)` is
false for a missing file): the error message becomes the fixed validation
message and nothing else changes. -/
theorem handleFileChange_empty_selection (s : SessionState)
    (h : s.appState = "upload") :
    step s (Ev.handleFileChange none) = { s with error := validationMsg } := by
  simp only [step, if_pos h]

/-- Witness for C9: cancelling the file dialog in the initial state. -/
theorem handleFileChange_empty_selection_witness :
    step initialState (Ev.handleFileChange none) =
      { initialState with error := validationMsg } :=
  handleFileChange_empty_selection initialState rfl

/-- Claim C10: when the collaborator fails, only `error`, `appState` and
`isCompressing` change; `originalFile`, the original preview handle, the
preset and the custom quality (and everything else, including the handle
ledgers and the `calls` ledger) are untouched. -/
theorem compression_failure_frame (s : SessionState)
    (h : s.isCompressing = true) :
    step s (Ev.compressionResult none) =
      { s with error := compressionFailMsg,
               appState := "upload",
               isCompressing := false } := by
  simp only [step, if_pos h]

/-- Witness for C10: the concrete in-flight session, on failure, keeps its
original file, preview handle, preset and quality. -/
theorem compression_failure_frame_witness :
    step inflightState (Ev.compressionResult none) =
      { inflightState with error := compressionFailMsg,
                           appState := "upload",
                           isCompressing := false } :=
  compression_failure_frame inflightState (by decide)

/-- Claim C3: in any reachable session with a compression call in flight, a
collaborator error returns the phase to Upload, sets the error message to
exactly the fixed compression-failure message, and leaves `compressedFile`
and the compressed preview handle absent. -/
theorem compression_failure_spec (s : SessionState) (hr : Reachable s)
    (h : s.isCompressing = true) :
    (step s (Ev.compressionResult none)).appState = "upload" ∧
    (step s (Ev.compressionResult none)).error =
      "Failed to compress image. It might be too small or in an unsupported format." ∧
    (step s (Ev.compressionResult none)).compressedFile = none ∧
    (step s (Ev.compressionResult none)).compressedImageUrl = none := by
  obtain ⟨h1, h2, h3, _⟩ := SessionInv_reachable s hr
  have hphase := h1 h
  have hcf : s.compressedFile = none := by
    cases hcf : s.compressedFile with
    | none => rfl
    | some g =>
      have := h2.mp (by simp [hcf])
      rw [hphase] at this
      exact absurd this (by decide)
  have hcu : s.compressedImageUrl = none := by
    cases hcu2 : s.compressedImageUrl with
    | none => rfl
    | some u =>
      have := h3.mp (by simp [hcu2])
      rw [hphase] at this
      exact absurd this (by decide)
  have hstep : step s (Ev.compressionResult none) =
      { s with error := compressionFailMsg,
               appState := "upload",
               isCompressing := false } := by
    simp only [step, if_pos h]
  rw [hstep]
  exact ⟨rfl, rfl, hcf, hcu⟩

/-- Witness for C3: a failing collaborator on the concrete in-flight
session. -/
theorem compression_failure_spec_witness :
    (step inflightState (Ev.compressionResult none)).appState = "upload" ∧
    (step inflightState (Ev.compressionResult none)).error =
      "Failed to compress image. It might be too small or in an unsupported format." ∧
    (step inflightState (Ev.compressionResult none)).compressedFile = none ∧
    (step inflightState (Ev.compressionResult none)).compressedImageUrl = none :=
  compression_failure_spec inflightState
    ⟨[Ev.handleFileChange (some demoJpeg), Ev.handleCompress], rfl⟩ (by decide)

/-- Claim C6: in every reachable session, `compressedFile` and the
compressed preview handle are present exactly when the phase is Done. -/
theorem compressed_present_iff_done (s : SessionState) (hr : Reachable s) :
    (s.compressedFile.isSome = true ∧ s.compressedImageUrl.isSome = true) ↔
      s.appState = "done" := by
  obtain ⟨_, h2, h3, _⟩ := SessionInv_reachable s hr
  constructor
  · intro hx
    exact h2.mp hx.1
  · intro hd
    exact ⟨h2.mpr hd, h3.mpr hd⟩

/-- Witness for C6: the invariant evaluated on a concrete completed
session. -/
theorem compressed_present_iff_done_witness :
    (doneState.compressedFile.isSome = true ∧
      doneState.compressedImageUrl.isSome = true) ↔ doneState.appState = "done" :=
  compressed_present_iff_done doneState
    ⟨[Ev.handleFileChange (some demoJpeg), Ev.handleCompress,
      Ev.compressionResult (some demoOut)], rfl⟩

/-- Claim C8: from any reachable session in phase Done, reset revokes both
preview handles, clears both file references, restores the Medium preset
and custom quality 70, clears the error message and returns to Upload;
nothing else changes. -/
theorem handleReset_spec (s : SessionState) (hr : Reachable s)
    (hd : s.appState = "done") :
    ∃ u v, s.originalImageUrl = some u ∧ s.compressedImageUrl = some v ∧
      step s Ev.handleReset =
        { s with originalFile := none, compressedFile := none,
                 originalImageUrl := none, compressedImageUrl := none,
                 compressionLevel := "Medium", customQuality := 70,
                 error := "", appState := "upload",
                 revoked := s.revoked ++ [u, v] } := by
  obtain ⟨_, _, h3, _, h5, _⟩ := SessionInv_reachable s hr
  have hou : s.originalImageUrl.isSome = true := by
    refine h5 ?_
    rw [hd]
    decide
  have hcu : s.compressedImageUrl.isSome = true := h3.mpr hd
  obtain ⟨a, ha⟩ := Option.isSome_iff_exists.mp hou
  obtain ⟨b, hb⟩ := Option.isSome_iff_exists.mp hcu
  refine ⟨a, b, ha, hb, ?_⟩
  have hstep : step s Ev.handleReset =
      { s with originalFile := none, compressedFile := none,
               originalImageUrl := none, compressedImageUrl := none,
               compressionLevel := "Medium", customQuality := 70,
               error := "", appState := "upload",
               revoked := s.revoked ++ [a] ++ [b] } := by
    simp only [step, if_pos hd, ha, hb, revokeObjectURL]
  rw [hstep]
  have hl : s.revoked ++ [a] ++ [b] = s.revoked ++ [a, b] := by simp
  rw [hl]

/-- Witness for C8: reset on the concrete completed session. -/
theorem handleReset_spec_witness :
    ∃ u v, doneState.originalImageUrl = some u ∧
      doneState.compressedImageUrl = some v ∧
      step doneState Ev.handleReset =
        { doneState with originalFile := none, compressedFile := none,
                         originalImageUrl := none, compressedImageUrl := none,
                         compressionLevel := "Medium", customQuality := 70,
                         error := "", appState := "upload",
                         revoked := doneState.revoked ++ [u, v] } :=
  handleReset_spec doneState
    ⟨[Ev.handleFileChange (some demoJpeg), Ev.handleCompress,
      Ev.compressionResult (some demoOut)], rfl⟩ (by decide)

/-- A full session lifetime in which the first selected file's preview
handle is superseded (after a compression failure returned the session to
Upload with the handle still set) and the session then completes and is
fully reset. -/
def leakTrace : List Ev :=
  [Ev.handleFileChange (some demoJpeg), Ev.handleCompress,
   Ev.compressionResult none, Ev.handleFileChange (some demoPng),
   Ev.handleCompress, Ev.compressionResult (some demoOut), Ev.handleReset]

/-- Counterexample to C2 as stated: along `leakTrace` the first preview
handle (handle 0) is created, is superseded by the second file selection
without being revoked, and is still unrevoked after the full reset, so a
created handle was never released (it leaked). -/
theorem preview_handle_leak_counterexample :
    0 ∈ (run leakTrace).created ∧ 0 ∉ (run leakTrace).revoked ∧
    (run leakTrace).originalImageUrl = none ∧
    (run leakTrace).compressedImageUrl = none ∧
    (run leakTrace).appState = "upload" ∧
    (run leakTrace).originalFile = none := by
  decide

/-- Claim C2 (amended): no preview handle is ever released twice, and only
created handles are released; but release is not total — a handle
superseded by a new file selection (reachable after a compression failure)
is never released, so handles can leak across a session's lifetime. -/
theorem preview_handles_released_at_most_once (s : SessionState)
    (hr : Reachable s) :
    s.revoked.Nodup ∧ ∀ h ∈ s.revoked, h ∈ s.created := by
  obtain ⟨_, _, _, _, _, h6, h7, _⟩ := SessionInv_reachable s hr
  exact ⟨h6, h7⟩

/-- Witness for the amended C2: the release ledger of the leaking trace
itself has no duplicates and only created handles. -/
theorem preview_handles_released_at_most_once_witness :
    (run leakTrace).revoked.Nodup ∧
    ∀ h ∈ (run leakTrace).revoked, h ∈ (run leakTrace).created :=
  preview_handles_released_at_most_once (run leakTrace) ⟨leakTrace, rfl⟩

/-- Claim C5: the parameter mapper is total: Low ↦ (1.0, 0.8), Medium ↦
(0.5, 0.6), High ↦ (0.1, 0.4), Custom ↦ (2.0, customQuality / 100), and
every string outside the four recognised presets silently falls back to
the Medium mapping. -/
theorem getCompressionOptions_mapping :
    (∀ q : Nat, getCompressionOptions "Low" q =
      { maxSizeMB := 1, initialQuality := 0.8 }) ∧
    (∀ q : Nat, getCompressionOptions "Medium" q =
      { maxSizeMB := 0.5, initialQuality := 0.6 }) ∧
    (∀ q : Nat, getCompressionOptions "High" q =
      { maxSizeMB := 0.1, initialQuality := 0.4 }) ∧
    (∀ q : Nat, getCompressionOptions "Custom" q =
      { maxSizeMB := 2, initialQuality := (q : ℚ) / 100 }) ∧
    (∀ (p : String) (q : Nat),
      p ≠ "Low" → p ≠ "Medium" → p ≠ "High" → p ≠ "Custom" →
      getCompressionOptions p q = getCompressionOptions "Medium" q) := by
  refine ⟨?_, ?_, ?_, ?_, ?_⟩
  · intro q
    simp [getCompressionOptions]
  · intro q
    simp [getCompressionOptions]
  · intro q
    simp [getCompressionOptions]
  · intro q
    simp [getCompressionOptions]
  · intro p q hl hm hh hc
    simp [getCompressionOptions, hl, hh, hc]

/-- Witness for C5: an unrecognised preset maps like Medium. -/
theorem getCompressionOptions_mapping_witness :
    getCompressionOptions "Banana" 35 = getCompressionOptions "Medium" 35 :=
  getCompressionOptions_mapping.2.2.2.2 "Banana" 35 (by decide) (by decide)
    (by decide) (by decide)

/-- Claim C7: the byte formatter at the default 2 decimal places maps 0 to
"0 Bytes", 1024 to "1 KB", 1536 to "1.5 KB" and 1048576 to "1 MB"; and for
every positive byte count below `1024 ^ 4` it selects the unit of index
`Nat.log 1024 b` from Bytes, KB, MB, GB — the largest unit whose scaled
value is at least 1, since `1024 ^ i ≤ b < 1024 ^ (i + 1)` and `i ≤ 3`. -/
theorem formatBytes_spec :
    formatBytes 0 2 = "0 Bytes" ∧
    formatBytes 1024 2 = "1 KB" ∧
    formatBytes 1536 2 = "1.5 KB" ∧
    formatBytes 1048576 2 = "1 MB" ∧
    (∀ b : Nat, 0 < b → b < 1024 ^ 4 →
      Nat.log 1024 b ≤ 3 ∧
      1024 ^ Nat.log 1024 b ≤ b ∧
      b < 1024 ^ (Nat.log 1024 b + 1) ∧
      ∃ numStr, formatBytes b 2 =
        numStr ++ " " ++ ["Bytes", "KB", "MB", "GB"].getD (Nat.log 1024 b) "") := by
  refine ⟨rfl, ?_, ?_, ?_, ?_⟩
  · have l1 : Nat.log 1024 1024 = 1 :=
      Nat.log_eq_of_pow_le_of_lt_pow (by norm_num) (by norm_num)
    simp only [formatBytes, l1]
    decide
  · have l1 : Nat.log 1024 1536 = 1 :=
      Nat.log_eq_of_pow_le_of_lt_pow (by norm_num) (by norm_num)
    simp only [formatBytes, l1]
    decide
  · have l2 : Nat.log 1024 1048576 = 2 :=
      Nat.log_eq_of_pow_le_of_lt_pow (by norm_num) (by norm_num)
    simp only [formatBytes, l2]
    decide
  · intro b hb hlt
    have hbne : b ≠ 0 := Nat.pos_iff_ne_zero.mp hb
    refine ⟨?_, Nat.pow_log_le_self 1024 hbne,
      Nat.lt_pow_succ_log_self (by norm_num) b, ?_⟩
    · have := Nat.log_lt_of_lt_pow hbne hlt
      omega
    · refine ⟨renderParsedFixed
          ((b * 10 ^ 2 * 2 + 1024 ^ Nat.log 1024 b) /
            (2 * 1024 ^ Nat.log 1024 b)) 2, ?_⟩
      unfold formatBytes
      rw [if_neg hbne]
      rfl

/-- Witness for C7: the general unit-selection clause applied at 1536
bytes. -/
theorem formatBytes_spec_witness :
    Nat.log 1024 1536 ≤ 3 ∧
    1024 ^ Nat.log 1024 1536 ≤ 1536 ∧
    1536 < 1024 ^ (Nat.log 1024 1536 + 1) ∧
    ∃ numStr, formatBytes 1536 2 =
      numStr ++ " " ++ ["Bytes", "KB", "MB", "GB"].getD (Nat.log 1024 1536) "" :=
  formatBytes_spec.2.2.2.2 1536 (by decide) (by decide)
